import Mathlib

/-!
Verification of the scam-detection core of the Agentic Honey-Pot API.

The Python sources under `services/scam_detector.py`,
`services/intelligence_extractor.py`, `api/honeypot.py`, `utils/phases.py`
and `config.py` are shallowly embedded here:

* a Python `str` is modeled as `List Char` (`Str`); `str.lower` is the
  ASCII letter map (which is exactly core `Char.toLower`), `in` on strings
  is substring containment, `str.split()` counts maximal non-whitespace
  runs, `str.strip()` drops whitespace at both ends;
* Python `float` arithmetic in the confidence scorer is modeled over `ℚ`
  (the claims checked about it are order/clamping facts that do not
  depend on rounding);
* the heterogeneous dictionaries flowing through `merge_extracted` are
  modeled extensionally as functions `Str → Option PyVal` (CPython's set
  iteration order over keys is unspecified, and the merge treats each key
  independently, so only the extensional content is determined);
* `list(set(xs))` is modeled as first-occurrence deduplication; CPython's
  set iteration order is unspecified, so any order is a model choice, and
  the properties proved about these lists are order-insensitive;
* `re.findall` for the five concrete regexes of the extractor is modeled
  by a small backtracking matcher over a sequence of pattern items
  (literals, counted character classes, optional literal alternations and
  word boundaries), scanning left to right and restarting after each
  non-overlapping match, exactly the shapes of the five source patterns.
-/

namespace Honeypot

/-- Python strings are modeled as lists of characters. -/
abbrev Str := List Char

/-- Python `str.lower()` applied to one character: the ASCII letter map,
which is precisely core `Char.toLower` (`A`-`Z` shifted by 32). -/
abbrev lowerChar : Char → Char := Char.toLower

/-- Python `text.lower()`. -/
def pyLower (s : Str) : Str := s.map lowerChar

/-- Python substring containment `needle in hay`. -/
def pyContains (hay needle : Str) : Bool :=
  hay.tails.any (fun t => needle.isPrefixOf t)

/-- Token counter scanning state machine: `tokenScan inTok s` counts the
token starts in `s`, where `inTok` records whether the scan is currently
inside a token. -/
def tokenScan : Bool → Str → Nat
  | _, [] => 0
  | inTok, c :: cs =>
    if c.isWhitespace then tokenScan false cs
    else (if inTok then 0 else 1) + tokenScan true cs

/-- Python `len(s.split())`: the number of whitespace-separated tokens,
i.e. the number of maximal non-whitespace runs. -/
def tokCount (s : Str) : Nat := tokenScan false s

/-- Python `s.strip()`: drop whitespace from both ends. -/
def pyStrip (s : Str) : Str :=
  ((s.dropWhile Char.isWhitespace).reverse.dropWhile Char.isWhitespace).reverse

/-- Python `list(dict.fromkeys(..))`-style stable deduplication kernel:
`pyDedupGo seen xs` drops every element of `xs` already in `seen` (the
`seen`-set of the loop in `merge_extracted`) and keeps the first
occurrence of each remaining element, in order. -/
def pyDedupGo (seen : List Str) : List Str → List Str
  | [] => []
  | x :: xs =>
    if seen.contains x then pyDedupGo seen xs
    else x :: pyDedupGo (x :: seen) xs

/-- Stable first-occurrence deduplication: the `seen`/`result` loop of
`merge_extracted`, started with an empty `seen` set. -/
def pyDedup (xs : List Str) : List Str := pyDedupGo [] xs

/-- Conversation phases, from `utils/phases.py`. -/
inductive Phase where
  | TRUST
  | CONFUSION
  | EXTRACTION
  | EXIT
deriving DecidableEq, Repr

/-- Chat message, from `models/schemas.py` (`sender`, `text`,
`timestamp`; only `text` feeds the detection logic). -/
structure Message where
  sender : Str
  text : Str
  timestamp : Str
deriving DecidableEq, Repr

/-- Behavioral signal dictionary built by `extract_behavioral_signals`
plus the `repetition` key the endpoint adds before calling
`decide_phase`.  A missing key read through `dict.get` is falsy in
Python, so the empty dictionary is represented by all-false fields. -/
structure BehavioralSignals where
  urgency : Bool
  authorityImpersonation : Bool
  fearInduction : Bool
  socialEngineering : Bool
  technicalPretext : Bool
  repetition : Bool
deriving DecidableEq, Repr

/-- All-false signal record: the image of Python's empty dict `{}` (and
of any dict with no true entry) under `dict.get`. -/
def noSignals : BehavioralSignals :=
  ⟨false, false, false, false, false, false⟩

/-- Keyword list of the `urgency` entry of `BEHAVIORAL_KEYWORDS`. -/
def urgencyKeywords : List Str :=
  [("immediately".toList), ("urgent".toList), ("now".toList), ("blocked".toList),
   ("fast".toList), ("quick".toList), ("do it now".toList), ("asap".toList),
   ("right now".toList), ("straight away".toList)]

/-- Keyword list of the `authorityImpersonation` entry of
`BEHAVIORAL_KEYWORDS`. -/
def authorityKeywords : List Str :=
  [("bank".toList), ("support".toList), ("customer care".toList), ("police".toList),
   ("cbi".toList), ("rbi".toList), ("officer".toList), ("government".toList),
   ("official".toList), ("representative".toList), ("executive".toList),
   ("manager".toList)]

/-- Keyword list of the `fearInduction` entry of `BEHAVIORAL_KEYWORDS`. -/
def fearKeywords : List Str :=
  [("blocked".toList), ("suspended".toList), ("legal".toList), ("penalty".toList),
   ("arrest".toList), ("fine".toList), ("account closure".toList), ("action".toList),
   ("complaint".toList), ("notice".toList), ("violation".toList)]

/-- Keyword list of the `socialEngineering` entry of
`BEHAVIORAL_KEYWORDS`. -/
def socialKeywords : List Str :=
  [("help".toList), ("support".toList), ("guide".toList), ("please".toList),
   ("need your".toList), ("can you".toList), ("do me a favor".toList),
   ("trusted".toList), ("secure".toList)]

/-- Keyword list of the `technicalPretext` entry of
`BEHAVIORAL_KEYWORDS`. -/
def technicalKeywords : List Str :=
  [("update".toList), ("software".toList), ("system".toList), ("security".toList),
   ("bug".toList), ("issue".toList), ("maintenance".toList),
   ("verification".toList), ("confirm".toList)]

/-- The ordered `INSTRUCTION_PATTERNS` table of `scam_detector.py`.  The
declaration order of the Python dict (insertion order, preserved by
dict iteration) is the priority order of `detect_instruction_pattern`. -/
def INSTRUCTION_PATTERNS : List (Str × List Str) :=
  [(("ask_for_upi_id".toList),
    [("upi id".toList), ("@".toList), ("vpa".toList), ("upi address".toList),
     ("send upi".toList)]),
   (("ask_for_otp".toList),
    [("otp".toList), ("one time password".toList), ("verification code".toList)]),
   (("ask_for_link_click".toList),
    [("click".toList), ("link".toList), ("url".toList), ("open".toList),
     ("visit".toList), ("download".toList)]),
   (("ask_for_app_install".toList),
    [("install".toList), ("download".toList), ("apk".toList), ("anydesk".toList),
     ("teamviewer".toList), ("app".toList)]),
   (("ask_for_bank_details".toList),
    [("account number".toList), ("ifsc".toList), ("bank details".toList),
     ("account info".toList)]),
   (("ask_for_credentials".toList),
    [("username".toList), ("email".toList), ("password".toList),
     ("login details".toList)]),
   (("ask_for_cvv".toList),
    [("cvv".toList), ("cvc".toList), ("security code".toList),
     ("card number".toList)])]

/-- The `SCAM_TERMS` list of `scam_detector.py`. -/
def SCAM_TERMS : List Str :=
  [("blocked".toList), ("suspended".toList), ("verify".toList), ("urgent".toList),
   ("immediate".toList), ("upi".toList), ("account".toList), ("refund".toList),
   ("claim".toList), ("winner".toList), ("click".toList), ("link".toList),
   ("update".toList), ("confirm".toList), ("password".toList), ("otp".toList),
   ("do it now".toList), ("why are you not responding".toList), ("fast".toList),
   ("asap".toList), ("bank".toList), ("verify identity".toList),
   ("pending".toList), ("pending approval".toList), ("transaction failed".toList),
   ("network issue".toList), ("settlement".toList), ("kyc".toList),
   ("aadhar".toList), ("pan".toList), ("secure".toList), ("official".toList)]

/-- Configuration constant `MIN_CONFIDENCE_THRESHOLD` from `config.py`
(default `0.3`). -/
def MIN_CONFIDENCE_THRESHOLD : ℚ := 0.3

/-- Embedding of `is_scam` (`scam_detector.py`): false for empty or
short (stripped length under 3) text, otherwise true iff at least one
scam term occurs in the lowercased text. -/
def is_scam (text : Str) : Bool :=
  if text = [] ∨ (pyStrip text).length < 3 then false
  else
    let lowered := pyLower text
    let matchCount := SCAM_TERMS.countP (fun term => pyContains lowered term)
    decide (matchCount ≥ 1)

/-- Embedding of `detect_repetition` (`scam_detector.py`): the current
text, lowercased and stripped, must occur inside at least 2 of the last
`threshold` history messages (lowercased).  The Python default
`threshold=3` is passed explicitly by all callers of this model. -/
def detect_repetition (history : List Message) (text : Str) (threshold : Nat) : Bool :=
  if text = [] ∨ history = [] then false
  else
    let text_lower := pyStrip (pyLower text)
    let recent := history.drop (history.length - threshold)
    let repetition_count := recent.countP (fun msg => pyContains (pyLower msg.text) text_lower)
    decide (repetition_count ≥ 2)

/-- Embedding of `extract_behavioral_signals` (`scam_detector.py`).  For
empty text Python returns the empty dict `{}`, which reads as all-false
through `dict.get`; for non-empty text each of the five keys is true iff
some keyword of its category occurs in the lowercased text.  The
`repetition` key is never set by this function (the endpoint sets it),
so it is false here. -/
def extract_behavioral_signals (text : Str) : BehavioralSignals :=
  if text = [] then noSignals
  else
    let tl := pyLower text
    { urgency := urgencyKeywords.any (fun k => pyContains tl k)
      authorityImpersonation := authorityKeywords.any (fun k => pyContains tl k)
      fearInduction := fearKeywords.any (fun k => pyContains tl k)
      socialEngineering := socialKeywords.any (fun k => pyContains tl k)
      technicalPretext := technicalKeywords.any (fun k => pyContains tl k)
      repetition := false }

/-- Embedding of `detect_instruction_pattern` (`scam_detector.py`):
`None` for empty text; otherwise the first label of
`INSTRUCTION_PATTERNS` whose keyword list hits the lowercased text,
guarded by the token count of the lowercased text exceeding 3; falling
back to `general_instruction`. -/
def detect_instruction_pattern (text : Str) : Option Str :=
  if text = [] then none
  else
    let text_lower := pyLower text
    match INSTRUCTION_PATTERNS.find?
        (fun pk => pk.2.any (fun k => pyContains text_lower k)
          && decide (3 < tokCount text_lower)) with
    | some pk => some pk.1
    | none => some ("general_instruction".toList)

/-- Aggregated extraction dictionary as the spec's data model fixes it:
five list-valued categories plus the mapping-valued `otherPatterns`.
This is the shape `extract_intelligence` produces and `decide_phase` /
`calculate_confidence` consume. -/
structure ExtractionResult where
  upiIds : List Str
  bankAccounts : List Str
  phishingLinks : List Str
  emailAddresses : List Str
  phoneNumbers : List Str
  otherPatterns : List (Str × List Str)
deriving DecidableEq, Repr

/-- Extraction result with every category empty. -/
def emptyExtraction : ExtractionResult :=
  ⟨[], [], [], [], [], []⟩

/-- Truthiness of `instruction and instruction != "general_instruction"`
in Python: `None` and the empty string are falsy, so the test passes
exactly for a present, non-empty label other than `general_instruction`. -/
def instrTruthy : Option Str → Bool
  | none => false
  | some s => !(s == []) && !(s == ("general_instruction".toList))

/-- Embedding of `decide_phase` (`scam_detector.py`): the priority
cascade over EXIT, EXTRACTION, TRUST and CONFUSION. -/
def decide_phase (history_len : Nat) (extracted : ExtractionResult)
    (behavioral : BehavioralSignals) (instruction : Option Str) : Phase :=
  if behavioral.repetition ∧ history_len ≥ 4 then .EXIT
  else if behavioral.urgency ∧ history_len ≥ 4 then .EXIT
  else if history_len ≥ 10 then .EXIT
  else if instrTruthy instruction then .EXTRACTION
  else if (extracted.upiIds ++ extracted.bankAccounts ++ extracted.emailAddresses) ≠ [] then
    .EXTRACTION
  else if behavioral.urgency ∨ behavioral.fearInduction then
    (if history_len ≥ 2 then .EXTRACTION else .CONFUSION)
  else if history_len = 0 then .TRUST
  else .CONFUSION

/-- Python `sum(len(v) for v in extracted.values())` over the six
categories: `len` of a list is its length and `len` of the
`otherPatterns` dict is its number of keys. -/
def extractedValuesLen (E : ExtractionResult) : Nat :=
  E.upiIds.length + E.bankAccounts.length + E.phishingLinks.length +
    E.emailAddresses.length + E.phoneNumbers.length + E.otherPatterns.length

/-- Factor 1 of `calculate_confidence`: the score increment contributed
by extracted items, `min(0.15 * extracted_count, 0.2)` guarded by
`extracted_count > 0`. -/
def extractedItemsTerm (E : ExtractionResult) : ℚ :=
  if extractedValuesLen E > 0 then
    min (0.15 * (extractedValuesLen E : ℚ)) 0.2
  else 0

/-- Embedding of `calculate_confidence` (`scam_detector.py`): additive
score starting at 0.5, clamped into
`[MIN_CONFIDENCE_THRESHOLD, 0.99]`. -/
def calculate_confidence (extracted : ExtractionResult)
    (behavioral : BehavioralSignals) (history_len : Nat)
    (instruction : Option Str) : ℚ :=
  let score : ℚ := 0.5
  let score := score + extractedItemsTerm extracted
  let score := if behavioral.urgency then score + 0.15 else score
  let score := if behavioral.fearInduction then score + 0.1 else score
  let score := if behavioral.authorityImpersonation then score + 0.1 else score
  let score := if behavioral.technicalPretext then score + 0.05 else score
  let score := if instrTruthy instruction then score + 0.1 else score
  let score := if history_len ≥ 5 then score + 0.05 else score
  max MIN_CONFIDENCE_THRESHOLD (min score 0.99)

/-- Word characters of the regex metacharacter `\b` (ASCII model of
Python `\w`): letters, digits and underscore. -/
def isWordChar (c : Char) : Bool := c.isAlphanum || c = '_'

/-- Item of a linear regular pattern, covering exactly the constructs
the five extractor regexes use: a literal, a counted single-character
class (`{lo,hi}`, with `hi = none` for an open bound), an optional
alternation of literals (`(?:a|b|c)?`, also `s?`), and the word
boundary `\b`. -/
inductive RItem where
  | lit (s : Str)
  | cls (p : Char → Bool) (lo : Nat) (hi : Option Nat)
  | opt (alts : List Str)
  | wb

/-- Last character of `s`, falling back to `prev` when `s` is empty;
used to track the character preceding the rest of the input for `\b`. -/
def lastOr (s : Str) (prev : Option Char) : Option Char :=
  match s.getLast? with
  | some c => some c
  | none => prev

/-- Length of the maximal prefix of `s` satisfying `p`: the greedy
consumption limit of a character class. -/
def runLen (p : Char → Bool) (s : Str) : Nat := (s.takeWhile p).length

/-- Descending list `[top, top-1, ..., lo]` (empty when `lo > top`):
the candidate consumption counts of a greedy counted class, longest
first, exactly the backtracking order of Python `re`. -/
def descRange (top lo : Nat) : List Nat :=
  (List.range (top + 1 - lo)).map (fun i => top - i)

/-- Word-character test through an optional character (string edges are
non-word positions). -/
def isWordOpt : Option Char → Bool
  | some c => isWordChar c
  | none => false

/-- Backtracking matcher for a linear pattern: `matchItems items prev
inp` returns the consumed length of the first match of `items` against
a prefix of `inp` in Python `re`'s backtracking order (greedy classes
try longest first, optional alternations try their alternatives in
order before the empty choice), where `prev` is the character just
before `inp` inside the scanned text (for `\b`). -/
def matchItems : List RItem → Option Char → Str → Option Nat
  | [], _, _ => some 0
  | .lit s :: rest, prev, inp =>
    if s.isPrefixOf inp then
      (matchItems rest (lastOr s prev) (inp.drop s.length)).map (· + s.length)
    else none
  | .cls p lo hi :: rest, prev, inp =>
    let run := runLen p inp
    let top := match hi with | none => run | some h => min h run
    (descRange top lo).findSome? (fun n =>
      (matchItems rest (lastOr (inp.take n) prev) (inp.drop n)).map (· + n))
  | .opt alts :: rest, prev, inp =>
    match alts.findSome? (fun s =>
        if s.isPrefixOf inp then
          (matchItems rest (lastOr s prev) (inp.drop s.length)).map (· + s.length)
        else none) with
    | some r => some r
    | none => matchItems rest prev inp
  | .wb :: rest, prev, inp =>
    if isWordOpt prev != isWordOpt inp.head? then matchItems rest prev inp
    else none

/-- Scanner of `re.findall`: try to match at each position from left to
right and restart right after the end of each (non-overlapping,
non-empty) match.  `fuel` bounds the recursion and every call keeps
`fuel ≥ length of the remaining input`, so the fuel never runs out; a
zero-length match is impossible for the five extractor patterns (each
has a mandatory consuming item) and that unreachable branch advances by
one character. -/
def scanAll (pat : List RItem) : Nat → Option Char → Str → List Str
  | 0, _, _ => []
  | _ + 1, _, [] => []
  | fuel + 1, prev, c :: cs =>
    match matchItems pat prev (c :: cs) with
    | some (n + 1) =>
      (c :: cs).take (n + 1) ::
        scanAll pat fuel (lastOr ((c :: cs).take (n + 1)) prev) ((c :: cs).drop (n + 1))
    | _ => scanAll pat fuel (some c) cs

/-- Embedding of `re.findall pattern text` for a linear pattern. -/
def refindall (pat : List RItem) (text : Str) : List Str :=
  scanAll pat text.length none text

/-- Pattern `UPI_REGEX`:
`\b[a-zA-Z0-9][a-zA-Z0-9.\-_]*@[a-zA-Z]{2,}\b` (the `re.IGNORECASE`
flag of the source call is a no-op: every class of this pattern already
contains both cases). -/
def upiItems : List RItem :=
  [.wb, .cls (fun c => c.isAlphanum) 1 (some 1),
   .cls (fun c => c.isAlphanum || c = '.' || c = '-' || c = '_') 0 none,
   .lit ("@".toList), .cls (fun c => c.isAlpha) 2 none, .wb]

/-- Pattern `BANK_REGEX`: `\b\d{9,18}\b`. -/
def bankItems : List RItem :=
  [.wb, .cls (fun c => c.isDigit) 9 (some 18), .wb]

/-- Pattern `URL_REGEX`: `https?://[^\s]+`. -/
def urlItems : List RItem :=
  [.lit ("http".toList), .opt [("s".toList)], .lit ("://".toList),
   .cls (fun c => !c.isWhitespace) 1 none]

/-- Pattern `EMAIL_REGEX`:
`\b[A-Za-z0-9._%+-]+@[A-Za-z0-9.-]+\.[A-Z|a-z]{2,}\b` (the last class
of the source literally contains the bar character). -/
def emailItems : List RItem :=
  [.wb,
   .cls (fun c => c.isAlphanum || c = '.' || c = '_' || c = '%' || c = '+' || c = '-') 1 none,
   .lit ("@".toList),
   .cls (fun c => c.isAlphanum || c = '.' || c = '-') 1 none,
   .lit (".".toList),
   .cls (fun c => c.isAlpha || c = '|') 2 none,
   .wb]

/-- Pattern `PHONE_REGEX`: `\b(?:\+91|91|0)?[6-9]\d{9}\b`. -/
def phoneItems : List RItem :=
  [.wb, .opt [("+91".toList), ("91".toList), ("0".toList)],
   .cls (fun c => '6' ≤ c && c ≤ '9') 1 (some 1),
   .cls (fun c => c.isDigit) 9 (some 9), .wb]

/-- Python `list(set(xs))` over strings, modeled as first-occurrence
deduplication.  CPython's set iteration order is unspecified (hash and
seed dependent), so the order of this list is a model choice; every
property proved about it is order-insensitive. -/
def pySetList (xs : List Str) : List Str := pyDedup xs

/-- Embedding of `extract_intelligence`
(`intelligence_extractor.py`): empty or whitespace-only text yields the
all-empty result; otherwise the five regexes are applied and each match
list is deduplicated; `otherPatterns` is always empty. -/
def extract_intelligence (text : Str) : ExtractionResult :=
  if text = [] ∨ (pyStrip text).length = 0 then emptyExtraction
  else
    { upiIds := pySetList (refindall upiItems text)
      bankAccounts := pySetList (refindall bankItems text)
      phishingLinks := pySetList (refindall urlItems text)
      emailAddresses := pySetList (refindall emailItems text)
      phoneNumbers := pySetList (refindall phoneItems text)
      otherPatterns := [] }

/-- Runtime value stored in the dictionaries `merge_extracted` handles:
either a list of strings or a string-keyed mapping of string lists
(category `otherPatterns`).  `merge_extracted` dispatches on this
runtime type with `isinstance`. -/
inductive PyVal where
  | list (xs : List Str)
  | dict (d : List (Str × List Str))
deriving DecidableEq, Repr

/-- Python dictionary with string keys and `PyVal` values, modeled
extensionally as a partial map: CPython iterates `set(keys1)|set(keys2)`
in unspecified order inside `merge_extracted`, and each key is processed
independently, so only the extensional content of the result is
determined. -/
abbrev PyDict := Str → Option PyVal

/-- Python empty dict `{}` as a `PyDict`. -/
def pyEmpty : PyDict := fun _ => none

/-- Coercion `val if isinstance(val, list) else []` of
`merge_extracted`; an absent key (`None`) also maps to the empty list. -/
def asList : Option PyVal → List Str
  | some (.list l) => l
  | _ => []

/-- Coercion `val if isinstance(val, dict) else {}` of
`merge_extracted`; an absent key (`None`) also maps to the empty dict. -/
def asDict : Option PyVal → List (Str × List Str)
  | some (.dict d) => d
  | _ => []

/-- Test `isinstance(val, dict)` on an optional value. -/
def isDictVal : Option PyVal → Bool
  | some (.dict _) => true
  | _ => false

/-- Python `{**d1, **d2}`: the keys of `d1` in order with values
overridden by `d2` where present, followed by the keys of `d2` not in
`d1`, in order. -/
def pyDictUnion (d1 d2 : List (Str × List Str)) : List (Str × List Str) :=
  d1.map (fun p => (p.1, (List.lookup p.1 d2).getD p.2)) ++
    d2.filter (fun p => (List.lookup p.1 d1).isNone)

/-- Per-key body of the loop of `merge_extracted`: dict-union when
either value is a dict, otherwise list concatenation with stable
deduplication. -/
def mergeVal (v1 v2 : Option PyVal) : PyVal :=
  if isDictVal v1 || isDictVal v2 then .dict (pyDictUnion (asDict v1) (asDict v2))
  else .list (pyDedup (asList v1 ++ asList v2))

/-- Embedding of `merge_extracted` (`intelligence_extractor.py`): for
every key present on either side, merge the two (possibly absent)
values with `mergeVal`; keys absent from both sides stay absent. -/
def merge_extracted (history_data current_data : PyDict) : PyDict :=
  fun k =>
    if (history_data k).isSome ∨ (current_data k).isSome then
      some (mergeVal (history_data k) (current_data k))
    else none

/-- View of an `ExtractionResult` as the Python dict
`extract_intelligence` actually returns: the five list categories plus
the dict-valued `otherPatterns`. -/
def toPyDict (E : ExtractionResult) : PyDict :=
  fun k =>
    if k = ("upiIds".toList) then some (.list E.upiIds)
    else if k = ("bankAccounts".toList) then some (.list E.bankAccounts)
    else if k = ("phishingLinks".toList) then some (.list E.phishingLinks)
    else if k = ("emailAddresses".toList) then some (.list E.emailAddresses)
    else if k = ("phoneNumbers".toList) then some (.list E.phoneNumbers)
    else if k = ("otherPatterns".toList) then some (.dict E.otherPatterns)
    else none

/-- Elements appended by Python `list.extend(v)`: the elements of a
list, or the keys of a dict (iterating a dict yields its keys). -/
def extendElems : PyVal → List Str
  | .list xs => xs
  | .dict d => d.map Prod.fst

/-- One `historical_extracted[k].extend(v)` step of the accumulation
loop in the endpoint (`api/honeypot.py`), including the
`if k not in historical_extracted: historical_extracted[k] = []`
initialization.  Values stored by this loop are always lists, so the
stored value is read back through `asList`. -/
def accumSet (h : PyDict) (k : Str) (v : PyVal) : PyDict :=
  fun q => if q = k then some (.list (asList (h k) ++ extendElems v)) else h q

/-- One iteration of the history loop of the endpoint: extract from one
message and extend each of the six category keys (the iteration order of
`old_extracted.items()` is the insertion order of
`extract_intelligence`'s result). -/
def accumStep (h : PyDict) (m : Message) : PyDict :=
  let E := extract_intelligence m.text
  let h := accumSet h ("upiIds".toList) (.list E.upiIds)
  let h := accumSet h ("bankAccounts".toList) (.list E.bankAccounts)
  let h := accumSet h ("phishingLinks".toList) (.list E.phishingLinks)
  let h := accumSet h ("emailAddresses".toList) (.list E.emailAddresses)
  let h := accumSet h ("phoneNumbers".toList) (.list E.phoneNumbers)
  accumSet h ("otherPatterns".toList) (.dict E.otherPatterns)

/-- Accumulation of `historical_extracted` over the whole conversation
history, starting from the empty dict, exactly as the endpoint loops. -/
def accumHist (history : List Message) : PyDict :=
  history.foldl accumStep pyEmpty

/-- Concatenation of one extraction category over the history, in
order: the raw (not yet deduplicated) list the endpoint's accumulation
loop builds for a list-valued category selected by `f`. -/
def histRaw (f : ExtractionResult → List Str) (history : List Message) : List Str :=
  (history.map (fun m => f (extract_intelligence m.text))).flatten

/-- Phase procedure exactly as claim C1 words it, with rule 4's
"instruction is present" read as: the optional label is not absent
(`None`).  Compared against `decide_phase`, which runs Python's
truthiness test and therefore also treats the empty-string label as
absent. -/
def phaseClaimProcedure (h : Nat) (E : ExtractionResult)
    (B : BehavioralSignals) (i : Option Str) : Phase :=
  if B.repetition ∧ h ≥ 4 then .EXIT
  else if B.urgency ∧ h ≥ 4 then .EXIT
  else if h ≥ 10 then .EXIT
  else if i.isSome ∧ i ≠ some ("general_instruction".toList) then .EXTRACTION
  else if E.upiIds.length + E.bankAccounts.length + E.emailAddresses.length ≥ 1 then
    .EXTRACTION
  else if B.urgency ∨ B.fearInduction then
    (if h ≥ 2 then .EXTRACTION else .CONFUSION)
  else if h = 0 then .TRUST
  else .CONFUSION

/-- Phase procedure of claim C1 amended only in rule 4: EXTRACTION
requires the label to be present, non-empty and different from
`general_instruction` (Python truthiness also rejects the empty
string). -/
def phaseAmendedProcedure (h : Nat) (E : ExtractionResult)
    (B : BehavioralSignals) (i : Option Str) : Phase :=
  if B.repetition ∧ h ≥ 4 then .EXIT
  else if B.urgency ∧ h ≥ 4 then .EXIT
  else if h ≥ 10 then .EXIT
  else if i ≠ none ∧ i ≠ some [] ∧ i ≠ some ("general_instruction".toList) then
    .EXTRACTION
  else if E.upiIds.length + E.bankAccounts.length + E.emailAddresses.length ≥ 1 then
    .EXTRACTION
  else if B.urgency ∨ B.fearInduction then
    (if h ≥ 2 then .EXTRACTION else .CONFUSION)
  else if h = 0 then .TRUST
  else .CONFUSION

/-- Instruction detection exactly as claim C3 words it: absent for
empty text; otherwise the first label in declared order whose keyword
list has a member occurring as a case-folded substring of the text,
provided the text has more than 3 whitespace-separated tokens; and
`general_instruction` when no category satisfies both conditions. -/
def instructionSpecC3 (text : Str) : Option Str :=
  if text = [] then none
  else
    match (if 3 < tokCount text then
            INSTRUCTION_PATTERNS.find?
              (fun pk => pk.2.any (fun kw => pyContains (pyLower text) kw))
          else none) with
    | some pk => some pk.1
    | none => some ("general_instruction".toList)

theorem contains_iff_mem (l : List Str) (x : Str) : l.contains x = true ↔ x ∈ l := by
  simp [List.contains, List.elem_iff]

theorem mem_pyDedupGo (xs : List Str) (a : Str) :
    ∀ seen, a ∈ pyDedupGo seen xs ↔ a ∈ xs ∧ a ∉ seen := by
  induction xs with
  | nil => intro seen; simp [pyDedupGo]
  | cons x xs ih =>
    intro seen
    by_cases hx : seen.contains x = true
    · have hxm : x ∈ seen := (contains_iff_mem seen x).mp hx
      rw [pyDedupGo, if_pos hx, ih seen]
      constructor
      · rintro ⟨h1, h2⟩; exact ⟨List.mem_cons_of_mem x h1, h2⟩
      · rintro ⟨h1, h2⟩
        rcases List.mem_cons.mp h1 with h | h
        · exact absurd (h ▸ hxm) h2
        · exact ⟨h, h2⟩
    · have hxm : x ∉ seen := fun hm => hx ((contains_iff_mem seen x).mpr hm)
      rw [pyDedupGo, if_neg hx]
      constructor
      · intro h1
        rcases List.mem_cons.mp h1 with h | h
        · exact ⟨h ▸ List.mem_cons_self x xs, h ▸ hxm⟩
        · rcases (ih (x :: seen)).mp h with ⟨h2, h3⟩
          exact ⟨List.mem_cons_of_mem x h2, fun hs => h3 (List.mem_cons_of_mem x hs)⟩
      · rintro ⟨h1, h2⟩
        rcases List.mem_cons.mp h1 with h | h
        · exact h ▸ List.mem_cons_self x _
        · by_cases hax : a = x
          · exact hax ▸ List.mem_cons_self x _
          · refine List.mem_cons_of_mem x ((ih (x :: seen)).mpr ⟨h, ?_⟩)
            intro hs
            rcases List.mem_cons.mp hs with h4 | h4
            · exact hax h4
            · exact h2 h4

theorem nodup_pyDedupGo (xs : List Str) : ∀ seen, (pyDedupGo seen xs).Nodup := by
  induction xs with
  | nil => intro seen; simp [pyDedupGo]
  | cons x xs ih =>
    intro seen
    by_cases hx : seen.contains x = true
    · rw [pyDedupGo, if_pos hx]; exact ih seen
    · rw [pyDedupGo, if_neg hx]
      refine List.nodup_cons.mpr ⟨fun hm => ?_, ih (x :: seen)⟩
      exact ((mem_pyDedupGo xs x (x :: seen)).mp hm).2 (List.mem_cons_self x seen)

theorem pyDedupGo_dedup_append (a b : List Str) :
    ∀ seen, pyDedupGo seen (pyDedupGo seen a ++ b) = pyDedupGo seen (a ++ b) := by
  induction a with
  | nil => intro seen; rfl
  | cons x a ih =>
    intro seen
    by_cases hx : seen.contains x = true
    · rw [List.cons_append, pyDedupGo, if_pos hx, pyDedupGo, if_pos hx, ih seen]
    · rw [List.cons_append, pyDedupGo, if_neg hx, pyDedupGo, if_neg hx,
        List.cons_append, pyDedupGo, if_neg hx, ih (x :: seen)]

theorem pyDedup_dedup_append (a b : List Str) :
    pyDedup (pyDedup a ++ b) = pyDedup (a ++ b) :=
  pyDedupGo_dedup_append a b []

theorem nodup_pyDedup (xs : List Str) : (pyDedup xs).Nodup :=
  nodup_pyDedupGo xs []

theorem lookup_map_override (s : Str) (d1 d2 : List (Str × List Str)) :
    List.lookup s (d1.map (fun p => (p.1, (List.lookup p.1 d2).getD p.2))) =
      (List.lookup s d1).map (fun v => (List.lookup s d2).getD v) := by
  induction d1 with
  | nil => simp
  | cons p d1 ih =>
    obtain ⟨a, b⟩ := p
    cases h : (s == a) with
    | false => simp only [List.map_cons, List.lookup_cons, h, ih]
    | true =>
      have hs : s = a := by simpa using h
      subst hs
      simp [List.map_cons, List.lookup_cons, h]

theorem lookup_filter_absent (s : Str) (d1 d2 : List (Str × List Str)) :
    List.lookup s (d2.filter (fun p => (List.lookup p.1 d1).isNone)) =
      if (List.lookup s d1).isNone then List.lookup s d2 else none := by
  induction d2 with
  | nil => simp only [List.filter_nil, List.lookup_nil]; split <;> rfl
  | cons p d2 ih =>
    obtain ⟨a, b⟩ := p
    by_cases hkeep : (List.lookup a d1).isNone = true
    · rw [List.filter_cons]
      simp only [hkeep, if_true]
      cases h : (s == a) with
      | false => simp only [List.lookup_cons, h, ih]
      | true =>
        have hs : s = a := by simpa using h
        subst hs
        simp only [List.lookup_cons, h, hkeep, if_true]
    · rw [List.filter_cons]
      simp only [hkeep, Bool.false_eq_true, if_false]
      rw [ih]
      cases h : (s == a) with
      | false => simp only [List.lookup_cons, h]
      | true =>
        have hs : s = a := by simpa using h
        subst hs
        rw [if_neg hkeep, if_neg hkeep]

theorem lookup_append_or (s : Str) (l1 l2 : List (Str × List Str)) :
    List.lookup s (l1 ++ l2) = (List.lookup s l1).or (List.lookup s l2) := by
  induction l1 with
  | nil => simp [Option.none_or]
  | cons p l1 ih =>
    obtain ⟨a, b⟩ := p
    cases h : (s == a) with
    | false => simp only [List.cons_append, List.lookup_cons, h, ih]
    | true => simp [List.cons_append, List.lookup_cons, h, Option.or]

theorem lookup_pyDictUnion (s : Str) (d1 d2 : List (Str × List Str)) :
    List.lookup s (pyDictUnion d1 d2) = (List.lookup s d2).or (List.lookup s d1) := by
  rw [pyDictUnion, lookup_append_or, lookup_map_override, lookup_filter_absent]
  cases h1 : List.lookup s d1 <;> cases h2 : List.lookup s d2 <;>
    simp [h1, h2]

theorem lookup_isSome_iff_mem_keys (s : Str) (d : List (Str × List Str)) :
    (List.lookup s d).isSome = true ↔ s ∈ d.map Prod.fst := by
  induction d with
  | nil => simp
  | cons p d ih =>
    obtain ⟨a, b⟩ := p
    cases h : (s == a) with
    | false =>
      have hs : ¬s = a := by simpa using h
      simp only [List.lookup_cons, h, List.map_cons, List.mem_cons, ih]
      constructor
      · exact Or.inr
      · rintro (h1 | h1)
        · exact absurd h1 hs
        · exact h1
    | true =>
      have hs : s = a := by simpa using h
      subst hs
      simp [List.lookup_cons, h]

theorem mem_keys_pyDictUnion (s : Str) (d1 d2 : List (Str × List Str)) :
    s ∈ (pyDictUnion d1 d2).map Prod.fst ↔
      s ∈ d1.map Prod.fst ∨ s ∈ d2.map Prod.fst := by
  rw [← lookup_isSome_iff_mem_keys, ← lookup_isSome_iff_mem_keys,
    ← lookup_isSome_iff_mem_keys, lookup_pyDictUnion, Option.isSome_or]
  cases List.lookup s d1 <;> cases List.lookup s d2 <;> simp

theorem extract_otherPatterns_nil (t : Str) :
    (extract_intelligence t).otherPatterns = [] := by
  rw [extract_intelligence]; split <;> rfl

theorem toPyDict_upi (E : ExtractionResult) :
    toPyDict E ("upiIds".toList) = some (.list E.upiIds) := rfl

theorem toPyDict_bank (E : ExtractionResult) :
    toPyDict E ("bankAccounts".toList) = some (.list E.bankAccounts) := rfl

theorem toPyDict_phish (E : ExtractionResult) :
    toPyDict E ("phishingLinks".toList) = some (.list E.phishingLinks) := rfl

theorem toPyDict_email (E : ExtractionResult) :
    toPyDict E ("emailAddresses".toList) = some (.list E.emailAddresses) := rfl

theorem toPyDict_phone (E : ExtractionResult) :
    toPyDict E ("phoneNumbers".toList) = some (.list E.phoneNumbers) := rfl

theorem toPyDict_oP (E : ExtractionResult) :
    toPyDict E ("otherPatterns".toList) = some (.dict E.otherPatterns) := rfl

theorem toPyDict_off (E : ExtractionResult) (q : Str)
    (h1 : q ≠ ("upiIds".toList)) (h2 : q ≠ ("bankAccounts".toList))
    (h3 : q ≠ ("phishingLinks".toList)) (h4 : q ≠ ("emailAddresses".toList))
    (h5 : q ≠ ("phoneNumbers".toList)) (h6 : q ≠ ("otherPatterns".toList)) :
    toPyDict E q = none := by
  simp only [toPyDict]
  rw [if_neg h1, if_neg h2, if_neg h3, if_neg h4, if_neg h5, if_neg h6]

theorem accumSet_other (h : PyDict) (k : Str) (v : PyVal) (q : Str) (hne : q ≠ k) :
    accumSet h k v q = h q := by
  simp [accumSet, hne]

theorem accumStep_upi (h : PyDict) (m : Message) :
    accumStep h m ("upiIds".toList) =
      some (.list (asList (h ("upiIds".toList)) ++ (extract_intelligence m.text).upiIds)) := rfl

theorem accumStep_bank (h : PyDict) (m : Message) :
    accumStep h m ("bankAccounts".toList) =
      some (.list (asList (h ("bankAccounts".toList)) ++ (extract_intelligence m.text).bankAccounts)) := rfl

theorem accumStep_phish (h : PyDict) (m : Message) :
    accumStep h m ("phishingLinks".toList) =
      some (.list (asList (h ("phishingLinks".toList)) ++ (extract_intelligence m.text).phishingLinks)) := rfl

theorem accumStep_email (h : PyDict) (m : Message) :
    accumStep h m ("emailAddresses".toList) =
      some (.list (asList (h ("emailAddresses".toList)) ++ (extract_intelligence m.text).emailAddresses)) := rfl

theorem accumStep_phone (h : PyDict) (m : Message) :
    accumStep h m ("phoneNumbers".toList) =
      some (.list (asList (h ("phoneNumbers".toList)) ++ (extract_intelligence m.text).phoneNumbers)) := rfl

theorem accumStep_oP (h : PyDict) (m : Message) :
    accumStep h m ("otherPatterns".toList) =
      some (.list (asList (h ("otherPatterns".toList)))) := by
  have : accumStep h m ("otherPatterns".toList) =
      some (.list (asList (h ("otherPatterns".toList)) ++
        (extract_intelligence m.text).otherPatterns.map Prod.fst)) := rfl
  rw [this, extract_otherPatterns_nil]
  simp

theorem accumStep_off (h : PyDict) (m : Message) (q : Str)
    (h1 : q ≠ ("upiIds".toList)) (h2 : q ≠ ("bankAccounts".toList))
    (h3 : q ≠ ("phishingLinks".toList)) (h4 : q ≠ ("emailAddresses".toList))
    (h5 : q ≠ ("phoneNumbers".toList)) (h6 : q ≠ ("otherPatterns".toList)) :
    accumStep h m q = h q := by
  rw [accumStep]
  rw [accumSet_other _ _ _ _ h6, accumSet_other _ _ _ _ h5,
    accumSet_other _ _ _ _ h4, accumSet_other _ _ _ _ h3,
    accumSet_other _ _ _ _ h2, accumSet_other _ _ _ _ h1]

theorem foldl_merge_listkey (k : Str) (f : ExtractionResult → List Str)
    (htp : ∀ E, toPyDict E k = some (.list (f E))) :
    ∀ (history : List Message) (D : PyDict) (raw : List Str),
      D k = some (.list (pyDedup raw)) →
      (List.foldl merge_extracted D
        (history.map (fun m => toPyDict (extract_intelligence m.text)))) k =
        some (.list (pyDedup (raw ++ histRaw f history))) := by
  intro history
  induction history with
  | nil =>
    intro D raw hD
    simpa [histRaw] using hD
  | cons m hist ih =>
    intro D raw hD
    rw [List.map_cons, List.foldl_cons]
    have hstep : (merge_extracted D (toPyDict (extract_intelligence m.text))) k =
        some (.list (pyDedup (raw ++ f (extract_intelligence m.text)))) := by
      simp only [merge_extracted, hD, htp]
      simp [mergeVal, isDictVal, asList, pyDedup_dedup_append]
    rw [ih _ _ hstep]
    simp [histRaw, List.append_assoc]

theorem foldl_merge_listkey_hist (k : Str) (f : ExtractionResult → List Str)
    (htp : ∀ E, toPyDict E k = some (.list (f E))) (history : List Message) :
    (List.foldl merge_extracted pyEmpty
        (history.map (fun m => toPyDict (extract_intelligence m.text)))) k =
      if history = [] then none else some (.list (pyDedup (histRaw f history))) := by
  cases history with
  | nil => rfl
  | cons m hist =>
    rw [List.map_cons, List.foldl_cons]
    have hstep : (merge_extracted pyEmpty (toPyDict (extract_intelligence m.text))) k =
        some (.list (pyDedup (f (extract_intelligence m.text)))) := by
      simp only [merge_extracted, pyEmpty, htp]
      simp [mergeVal, isDictVal, asList]
    rw [foldl_merge_listkey k f htp hist _ _ hstep]
    simp [histRaw]

theorem foldl_accum_listkey (k : Str) (f : ExtractionResult → List Str)
    (has : ∀ (h : PyDict) (m : Message),
      accumStep h m k = some (.list (asList (h k) ++ f (extract_intelligence m.text)))) :
    ∀ (hist : List Message) (A : PyDict) (raw : List Str),
      A k = some (.list raw) →
      (List.foldl accumStep A hist) k = some (.list (raw ++ histRaw f hist)) := by
  intro hist
  induction hist with
  | nil =>
    intro A raw hA
    simpa [histRaw] using hA
  | cons m hist ih =>
    intro A raw hA
    rw [List.foldl_cons]
    have hstep : (accumStep A m) k =
        some (.list (raw ++ f (extract_intelligence m.text))) := by
      rw [has A m, hA]; rfl
    rw [ih _ _ hstep]
    simp [histRaw, List.append_assoc]

theorem accumHist_listkey (k : Str) (f : ExtractionResult → List Str)
    (has : ∀ (h : PyDict) (m : Message),
      accumStep h m k = some (.list (asList (h k) ++ f (extract_intelligence m.text))))
    (history : List Message) :
    accumHist history k =
      if history = [] then none else some (.list (histRaw f history)) := by
  cases history with
  | nil => rfl
  | cons m hist =>
    rw [accumHist, List.foldl_cons]
    have hstep : (accumStep pyEmpty m) k =
        some (.list (f (extract_intelligence m.text))) := by
      rw [has pyEmpty m]; rfl
    rw [foldl_accum_listkey k f has hist _ _ hstep]
    simp [histRaw]

theorem foldl_merge_oP_aux :
    ∀ (hist : List Message) (D : PyDict),
      D ("otherPatterns".toList) = some (.dict []) →
      (List.foldl merge_extracted D
        (hist.map (fun m => toPyDict (extract_intelligence m.text)))) ("otherPatterns".toList) =
        some (.dict []) := by
  intro hist
  induction hist with
  | nil => intro D hD; simpa using hD
  | cons m hist ih =>
    intro D hD
    rw [List.map_cons, List.foldl_cons]
    refine ih _ ?_
    simp only [merge_extracted, hD, toPyDict_oP, extract_otherPatterns_nil]
    simp [mergeVal, isDictVal, asDict, pyDictUnion]

theorem foldl_merge_oP (history : List Message) :
    (List.foldl merge_extracted pyEmpty
        (history.map (fun m => toPyDict (extract_intelligence m.text)))) ("otherPatterns".toList) =
      if history = [] then none else some (.dict []) := by
  cases history with
  | nil => rfl
  | cons m hist =>
    rw [List.map_cons, List.foldl_cons]
    rw [foldl_merge_oP_aux hist _ ?_]
    · simp
    · simp only [merge_extracted, pyEmpty, toPyDict_oP, extract_otherPatterns_nil]
      simp [mergeVal, isDictVal, asDict, pyDictUnion]

theorem foldl_accum_oP_aux :
    ∀ (hist : List Message) (A : PyDict),
      A ("otherPatterns".toList) = some (.list []) →
      (List.foldl accumStep A hist) ("otherPatterns".toList) = some (.list []) := by
  intro hist
  induction hist with
  | nil => intro A hA; simpa using hA
  | cons m hist ih =>
    intro A hA
    rw [List.foldl_cons]
    refine ih _ ?_
    rw [accumStep_oP, hA]; rfl

theorem accumHist_oP (history : List Message) :
    accumHist history ("otherPatterns".toList) =
      if history = [] then none else some (.list []) := by
  cases history with
  | nil => rfl
  | cons m hist =>
    rw [accumHist, List.foldl_cons]
    rw [foldl_accum_oP_aux hist _ ?_]
    · simp
    · rw [accumStep_oP]; rfl

theorem foldl_merge_off (q : Str) (hnone : ∀ E, toPyDict E q = none) :
    ∀ (hist : List Message) (D : PyDict), D q = none →
      (List.foldl merge_extracted D
        (hist.map (fun m => toPyDict (extract_intelligence m.text)))) q = none := by
  intro hist
  induction hist with
  | nil => intro D hD; simpa using hD
  | cons m hist ih =>
    intro D hD
    rw [List.map_cons, List.foldl_cons]
    refine ih _ ?_
    simp [merge_extracted, hD, hnone]

theorem accumHist_off_aux (q : Str)
    (h1 : q ≠ ("upiIds".toList)) (h2 : q ≠ ("bankAccounts".toList))
    (h3 : q ≠ ("phishingLinks".toList)) (h4 : q ≠ ("emailAddresses".toList))
    (h5 : q ≠ ("phoneNumbers".toList)) (h6 : q ≠ ("otherPatterns".toList)) :
    ∀ (hist : List Message) (A : PyDict), A q = none →
      (List.foldl accumStep A hist) q = none := by
  intro hist
  induction hist with
  | nil => intro A hA; simpa using hA
  | cons m hist ih =>
    intro A hA
    rw [List.foldl_cons]
    refine ih _ ?_
    rw [accumStep_off _ _ _ h1 h2 h3 h4 h5 h6, hA]

theorem merge_fold_eq_listkey (k : Str) (f : ExtractionResult → List Str)
    (htp : ∀ E, toPyDict E k = some (.list (f E)))
    (has : ∀ (h : PyDict) (m : Message),
      accumStep h m k = some (.list (asList (h k) ++ f (extract_intelligence m.text))))
    (history : List Message) (Ec : ExtractionResult) :
    merge_extracted
      (List.foldl merge_extracted pyEmpty
        (history.map (fun m => toPyDict (extract_intelligence m.text))))
      (toPyDict Ec) k =
    merge_extracted (accumHist history) (toPyDict Ec) k := by
  cases history with
  | nil =>
    have hL := foldl_merge_listkey_hist k f htp []
    have hA := accumHist_listkey k f has []
    rw [if_pos rfl] at hL hA
    simp only [merge_extracted, hL, hA]
  | cons m hist =>
    have hL := foldl_merge_listkey_hist k f htp (m :: hist)
    have hA := accumHist_listkey k f has (m :: hist)
    rw [if_neg (List.cons_ne_nil m hist)] at hL hA
    simp only [merge_extracted, hL, hA, htp Ec]
    simp [mergeVal, isDictVal, asList, pyDedup_dedup_append]

theorem merge_fold_eq_oP (history : List Message) (Ec : ExtractionResult)
    (hc : Ec.otherPatterns = []) :
    merge_extracted
      (List.foldl merge_extracted pyEmpty
        (history.map (fun m => toPyDict (extract_intelligence m.text))))
      (toPyDict Ec) ("otherPatterns".toList) =
    merge_extracted (accumHist history) (toPyDict Ec) ("otherPatterns".toList) := by
  cases history with
  | nil =>
    have hL := foldl_merge_oP []
    have hA := accumHist_oP []
    rw [if_pos rfl] at hL hA
    simp only [merge_extracted, hL, hA]
  | cons m hist =>
    have hL := foldl_merge_oP (m :: hist)
    have hA := accumHist_oP (m :: hist)
    rw [if_neg (List.cons_ne_nil m hist)] at hL hA
    simp only [merge_extracted, hL, hA, toPyDict_oP, hc]
    simp [mergeVal, isDictVal, asDict]

theorem merge_fold_eq_off (q : Str) (hnone : ∀ E, toPyDict E q = none)
    (h1 : q ≠ ("upiIds".toList)) (h2 : q ≠ ("bankAccounts".toList))
    (h3 : q ≠ ("phishingLinks".toList)) (h4 : q ≠ ("emailAddresses".toList))
    (h5 : q ≠ ("phoneNumbers".toList)) (h6 : q ≠ ("otherPatterns".toList))
    (history : List Message) (Ec : ExtractionResult) :
    merge_extracted
      (List.foldl merge_extracted pyEmpty
        (history.map (fun m => toPyDict (extract_intelligence m.text))))
      (toPyDict Ec) q =
    merge_extracted (accumHist history) (toPyDict Ec) q := by
  have hL := foldl_merge_off q hnone history pyEmpty rfl
  have hA := accumHist_off_aux q h1 h2 h3 h4 h5 h6 history pyEmpty rfl
  simp only [merge_extracted, accumHist, hL, hA, hnone]

theorem lowerChar_isWhitespace (c : Char) :
    (lowerChar c).isWhitespace = c.isWhitespace := by
  show (let n := c.toNat; if n ≥ 65 ∧ n ≤ 90 then Char.ofNat (n + 32) else c).isWhitespace
    = c.isWhitespace
  simp only []
  split
  case isTrue h =>
    have hv : (c.toNat + 32).isValidChar := Or.inl (by omega)
    have ht : (Char.ofNat (c.toNat + 32)).toNat = c.toNat + 32 := by
      rw [Char.ofNat, dif_pos hv]
      simp [Char.ofNatAux, Char.toNat, UInt32.ofNat', UInt32.toNat]
    have key : ∀ d : Char, (Char.ofNat (c.toNat + 32)).toNat ≠ d.toNat →
        Char.ofNat (c.toNat + 32) ≠ d :=
      fun d hd he => hd (congrArg Char.toNat he)
    have key2 : ∀ d : Char, c.toNat ≠ d.toNat → c ≠ d :=
      fun d hd he => hd (congrArg Char.toNat he)
    have e1 : Char.ofNat (c.toNat + 32) ≠ ' ' := key ' ' (by rw [ht]; show _ + 32 ≠ 32; omega)
    have e2 : Char.ofNat (c.toNat + 32) ≠ '\t' := key '\t' (by rw [ht]; show _ + 32 ≠ 9; omega)
    have e3 : Char.ofNat (c.toNat + 32) ≠ '\r' := key '\r' (by rw [ht]; show _ + 32 ≠ 13; omega)
    have e4 : Char.ofNat (c.toNat + 32) ≠ '\n' := key '\n' (by rw [ht]; show _ + 32 ≠ 10; omega)
    have f1 : c ≠ ' ' := key2 ' ' (by show _ ≠ 32; omega)
    have f2 : c ≠ '\t' := key2 '\t' (by show _ ≠ 9; omega)
    have f3 : c ≠ '\r' := key2 '\r' (by show _ ≠ 13; omega)
    have f4 : c ≠ '\n' := key2 '\n' (by show _ ≠ 10; omega)
    unfold Char.isWhitespace
    simp [e1, e2, e3, e4, f1, f2, f3, f4]
  case isFalse h => rfl

theorem tokenScan_pyLower (s : Str) : ∀ b, tokenScan b (pyLower s) = tokenScan b s := by
  induction s with
  | nil => intro b; rfl
  | cons c cs ih =>
    intro b
    show tokenScan b (lowerChar c :: pyLower cs) = tokenScan b (c :: cs)
    rw [tokenScan, tokenScan, lowerChar_isWhitespace]
    by_cases hw : c.isWhitespace = true
    · simp [hw, ih]
    · simp [hw, ih]

theorem tokCount_pyLower (s : Str) : tokCount (pyLower s) = tokCount s :=
  tokenScan_pyLower s false

theorem pyContains_singleton (hay : Str) (c : Char) :
    pyContains hay [c] = true ↔ c ∈ hay := by
  induction hay with
  | nil => simp [pyContains, List.isPrefixOf]
  | cons x hay ih =>
    rw [pyContains] at ih ⊢
    simp only [List.tails, List.any_cons, Bool.or_eq_true, List.isPrefixOf, List.mem_cons]
    rw [ih]
    constructor
    · rintro (h | h)
      · exact Or.inl (by simpa using ((Bool.and_eq_true _ _).mp h).1)
      · exact Or.inr h
    · rintro (h | h)
      · subst h; exact Or.inl (by simp [List.isPrefixOf])
      · exact Or.inr h

theorem find?_congr {α : Type} (p q : α → Bool) (h : ∀ x, p x = q x) :
    ∀ l : List α, l.find? p = l.find? q := by
  intro l
  induction l with
  | nil => rfl
  | cons a l ih =>
    cases hp : p a with
    | true => rw [List.find?_cons_of_pos l hp, List.find?_cons_of_pos l ((h a) ▸ hp)]
    | false =>
      rw [List.find?_cons_of_neg l (by simp [hp]),
        List.find?_cons_of_neg l (by simp [← h a, hp]), ih]

/-- Claim C1, counterexample to the statement as written: at history
length 0 with empty extraction, no signals, and the present-but-empty
instruction label, `decide_phase` returns TRUST (Python's truthiness
test treats the empty string as absent), while the claim's
priority-ordered procedure, whose rule 4 requires only "present and not
general_instruction", returns EXTRACTION. -/
theorem C1_counterexample :
    decide_phase 0 emptyExtraction noSignals (some []) = Phase.TRUST ∧
    phaseClaimProcedure 0 emptyExtraction noSignals (some []) = Phase.EXTRACTION := by
  exact ⟨by decide, by decide⟩

/-- Claim C1 (amended): `decide_phase` equals the claim's
priority-ordered procedure once rule 4 additionally requires the label
to be non-empty; in particular history length 10 with no signals yields
EXIT and history length 0 with instruction `ask_for_otp` yields
EXTRACTION. -/
theorem C1_decide_phase_amended :
    (∀ (h : Nat) (E : ExtractionResult) (B : BehavioralSignals) (i : Option Str),
      decide_phase h E B i = phaseAmendedProcedure h E B i) ∧
    decide_phase 10 emptyExtraction noSignals none = Phase.EXIT ∧
    decide_phase 0 emptyExtraction noSignals (some ("ask_for_otp".toList)) =
      Phase.EXTRACTION := by
  refine ⟨?_, by decide, by decide⟩
  intro h E B i
  have hi : (instrTruthy i = true) ↔
      (i ≠ none ∧ i ≠ some [] ∧ i ≠ some ("general_instruction".toList)) := by
    cases i with
    | none => simp [instrTruthy]
    | some s => simp [instrTruthy]
  have he : ((E.upiIds ++ E.bankAccounts ++ E.emailAddresses) ≠ []) ↔
      E.upiIds.length + E.bankAccounts.length + E.emailAddresses.length ≥ 1 := by
    rw [Ne, ← List.length_eq_zero, List.length_append, List.length_append]
    omega
  rw [decide_phase, phaseAmendedProcedure]
  by_cases c1 : B.repetition = true ∧ h ≥ 4
  · rw [if_pos c1, if_pos c1]
  rw [if_neg c1, if_neg c1]
  by_cases c2 : B.urgency = true ∧ h ≥ 4
  · rw [if_pos c2, if_pos c2]
  rw [if_neg c2, if_neg c2]
  by_cases c3 : h ≥ 10
  · rw [if_pos c3, if_pos c3]
  rw [if_neg c3, if_neg c3]
  by_cases c4 : instrTruthy i = true
  · rw [if_pos c4, if_pos (hi.mp c4)]
  rw [if_neg c4, if_neg (fun hx => c4 (hi.mpr hx))]
  by_cases c5 : (E.upiIds ++ E.bankAccounts ++ E.emailAddresses) ≠ []
  · rw [if_pos c5, if_pos (he.mp c5)]
  rw [if_neg c5, if_neg (fun hx => c5 (he.mpr hx))]

/-- Claim C2: for every extraction result, behavioral signal record,
history length and instruction label, `calculate_confidence` lies in
the interval `[0.3, 0.99]` (the configured minimum threshold being the
default 0.3). -/
theorem C2_confidence_bounds :
    ∀ (E : ExtractionResult) (B : BehavioralSignals) (h : Nat) (i : Option Str),
      (0.3 : ℚ) ≤ calculate_confidence E B h i ∧ calculate_confidence E B h i ≤ 0.99 := by
  intro E B h i
  simp only [calculate_confidence, MIN_CONFIDENCE_THRESHOLD]
  constructor
  · exact le_max_left _ _
  · exact max_le (by norm_num) (min_le_right _ _)

/-- Claim C3: `detect_instruction_pattern` agrees everywhere with the
claimed description (first label in declared order hit by a keyword,
guarded by more than 3 whitespace-separated tokens, falling back to
`general_instruction` on non-empty text and to absence on empty text);
in particular the 1-token text `otp` yields `general_instruction` and
the 6-token text `please share the otp now please` yields
`ask_for_otp`. -/
theorem C3_instruction_refinement :
    (∀ text : Str, detect_instruction_pattern text = instructionSpecC3 text) ∧
    detect_instruction_pattern ("otp".toList) = some ("general_instruction".toList) ∧
    detect_instruction_pattern ("please share the otp now please".toList) =
      some ("ask_for_otp".toList) := by
  refine ⟨?_, by decide, by decide⟩
  intro text
  by_cases hne : text = []
  · subst hne; rfl
  simp only [detect_instruction_pattern, instructionSpecC3, if_neg hne]
  by_cases htok : 3 < tokCount text
  · have htok2 : 3 < tokCount (pyLower text) := by rw [tokCount_pyLower]; exact htok
    rw [if_pos htok]
    have hcongr : List.find? (fun pk => pk.2.any (fun k => pyContains (pyLower text) k)
          && decide (3 < tokCount (pyLower text))) INSTRUCTION_PATTERNS
        = List.find? (fun pk => pk.2.any (fun kw => pyContains (pyLower text) kw))
            INSTRUCTION_PATTERNS := by
      apply find?_congr
      intro x
      simp [htok2]
    rw [hcongr]
  · have htok2 : ¬3 < tokCount (pyLower text) := by rw [tokCount_pyLower]; exact htok
    rw [if_neg htok]
    have hnone : List.find? (fun pk => pk.2.any (fun k => pyContains (pyLower text) k)
          && decide (3 < tokCount (pyLower text))) INSTRUCTION_PATTERNS = none := by
      rw [List.find?_eq_none]
      intro x hx
      simp [htok2]
    rw [hnone]

/-- Claim C4, counterexample to the statement as written: on an
extraction result whose `otherPatterns` mapping has one key holding a
three-element list, the claim's flattened count is 3 so it predicts a
term of `min(0.15*3, 0.2) = 0.2`, but the code's
`sum(len(v) for v in extracted.values())` counts the number of mapping
keys (1) and adds `min(0.15*1, 0.2) = 0.15`. -/
theorem C4_counterexample :
    ((⟨[], [], [], [], [],
        [(("k".toList), [("a".toList), ("b".toList), ("c".toList)])]⟩ :
      ExtractionResult).otherPatterns.map (fun p => p.2.length)).sum = 3 ∧
    extractedValuesLen ⟨[], [], [], [], [],
        [(("k".toList), [("a".toList), ("b".toList), ("c".toList)])]⟩ = 1 ∧
    extractedItemsTerm ⟨[], [], [], [], [],
        [(("k".toList), [("a".toList), ("b".toList), ("c".toList)])]⟩ = 0.15 ∧
    min ((0.15 : ℚ) * 3) 0.2 = 0.2 := by
  refine ⟨rfl, rfl, ?_, by norm_num⟩
  norm_num [extractedItemsTerm, extractedValuesLen]

/-- Claim C4 (amended): the extracted-items term added to the base
confidence score equals `min(0.15 * N, 0.2)` where `N` sums the lengths
of the list-valued categories and, for the mapping-valued
`otherPatterns`, its number of keys (not the flattened value
lengths). -/
theorem C4_amended_term :
    ∀ E : ExtractionResult,
      extractedItemsTerm E = min (0.15 * (extractedValuesLen E : ℚ)) 0.2 := by
  intro E
  rw [extractedItemsTerm]
  split
  case isTrue h => rfl
  case isFalse h =>
    have h0 : extractedValuesLen E = 0 := by omega
    rw [h0]
    norm_num

/-- Claim C5: for every pair of dictionaries and every key present on
either side, `merge_extracted` merges as a dict union when either value
is a mapping — the union's lookup prefers the current side (second
argument) and its key set is the union of both key sets — and otherwise
concatenates prior-then-current with stable first-occurrence
deduplication; an absent or non-matching-typed side contributes the
empty value through `asDict`/`asList`. -/
theorem C5_merge_per_key (P C : PyDict) (k : Str)
    (hk : (P k).isSome ∨ (C k).isSome) :
    ((isDictVal (P k) || isDictVal (C k)) = true →
      merge_extracted P C k =
        some (.dict (pyDictUnion (asDict (P k)) (asDict (C k)))) ∧
      (∀ s, List.lookup s (pyDictUnion (asDict (P k)) (asDict (C k))) =
        (List.lookup s (asDict (C k))).or (List.lookup s (asDict (P k)))) ∧
      (∀ s, s ∈ (pyDictUnion (asDict (P k)) (asDict (C k))).map Prod.fst ↔
        s ∈ (asDict (P k)).map Prod.fst ∨ s ∈ (asDict (C k)).map Prod.fst)) ∧
    ((isDictVal (P k) || isDictVal (C k)) = false →
      merge_extracted P C k =
        some (.list (pyDedup (asList (P k) ++ asList (C k))))) := by
  constructor
  · intro hd
    refine ⟨?_, fun s => lookup_pyDictUnion s _ _, fun s => mem_keys_pyDictUnion s _ _⟩
    simp only [merge_extracted, if_pos hk, mergeVal, hd, if_true]
  · intro hd
    simp only [merge_extracted, if_pos hk, mergeVal, hd, Bool.false_eq_true, if_false]

/-- Claim C5, witness: a concrete merge where `otherPatterns` carries
two overlapping dicts (the current side's value wins on the shared key
`y`) and `upiIds` carries overlapping lists (concatenated and
deduplicated keeping first occurrences). -/
theorem C5_witness :
    merge_extracted
      (fun q => if q = ("otherPatterns".toList) then
          some (.dict [(("x".toList), [("1".toList)]), (("y".toList), [("2".toList)])])
        else if q = ("upiIds".toList) then
          some (.list [("a".toList), ("a".toList), ("b".toList)])
        else none)
      (fun q => if q = ("otherPatterns".toList) then
          some (.dict [(("y".toList), [("9".toList)]), (("z".toList), [("3".toList)])])
        else if q = ("upiIds".toList) then
          some (.list [("b".toList), ("c".toList)])
        else none)
      ("otherPatterns".toList) =
      some (.dict [(("x".toList), [("1".toList)]), (("y".toList), [("9".toList)]),
        (("z".toList), [("3".toList)])]) ∧
    merge_extracted
      (fun q => if q = ("otherPatterns".toList) then
          some (.dict [(("x".toList), [("1".toList)]), (("y".toList), [("2".toList)])])
        else if q = ("upiIds".toList) then
          some (.list [("a".toList), ("a".toList), ("b".toList)])
        else none)
      (fun q => if q = ("otherPatterns".toList) then
          some (.dict [(("y".toList), [("9".toList)]), (("z".toList), [("3".toList)])])
        else if q = ("upiIds".toList) then
          some (.list [("b".toList), ("c".toList)])
        else none)
      ("upiIds".toList) =
      some (.list [("a".toList), ("b".toList), ("c".toList)]) := by
  constructor
  · exact ((C5_merge_per_key _ _ _ (Or.inl (by decide))).1 (by decide)).1.trans (by decide)
  · exact ((C5_merge_per_key _ _ _ (Or.inl (by decide))).2 (by decide)).trans (by decide)

/-- Claim C6: folding `merge_extracted` from the empty dict over the
per-message extractions of the history followed by the current
message's extraction equals the endpoint's computation, which first
accumulates the history by concatenating per-message category lists
and then merges once with the current extraction. -/
theorem C6_fold_agreement :
    ∀ (history : List Message) (current : Message),
      List.foldl merge_extracted pyEmpty
        ((history.map (fun m => toPyDict (extract_intelligence m.text))) ++
          [toPyDict (extract_intelligence current.text)]) =
        merge_extracted (accumHist history)
          (toPyDict (extract_intelligence current.text)) := by
  intro history current
  rw [List.foldl_append, List.foldl_cons, List.foldl_nil]
  funext q
  by_cases h1 : q = ("upiIds".toList)
  · subst h1
    exact merge_fold_eq_listkey _ (fun E => E.upiIds) toPyDict_upi accumStep_upi history _
  by_cases h2 : q = ("bankAccounts".toList)
  · subst h2
    exact merge_fold_eq_listkey _ (fun E => E.bankAccounts) toPyDict_bank accumStep_bank
      history _
  by_cases h3 : q = ("phishingLinks".toList)
  · subst h3
    exact merge_fold_eq_listkey _ (fun E => E.phishingLinks) toPyDict_phish accumStep_phish
      history _
  by_cases h4 : q = ("emailAddresses".toList)
  · subst h4
    exact merge_fold_eq_listkey _ (fun E => E.emailAddresses) toPyDict_email accumStep_email
      history _
  by_cases h5 : q = ("phoneNumbers".toList)
  · subst h5
    exact merge_fold_eq_listkey _ (fun E => E.phoneNumbers) toPyDict_phone accumStep_phone
      history _
  by_cases h6 : q = ("otherPatterns".toList)
  · subst h6
    exact merge_fold_eq_oP history _ (extract_otherPatterns_nil current.text)
  · exact merge_fold_eq_off q (fun E => toPyDict_off E q h1 h2 h3 h4 h5 h6)
      h1 h2 h3 h4 h5 h6 history _

/-- Claim C7: the extractor, the signal detectors and the scorers are
total functions of their string inputs (they are definable as total
functions in this embedding, with no error branch), and degenerate
inputs degrade to empty/default results: whitespace-only text gives the
all-empty extraction, empty text gives the empty signal dict and an
absent instruction label, short text is never flagged by `is_scam`,
empty text or history never counts as repetition, and the confidence
score is always a valid probability. -/
theorem C7_total_degrade :
    (∀ text : Str, text.all Char.isWhitespace = true →
      extract_intelligence text = emptyExtraction) ∧
    extract_behavioral_signals [] = noSignals ∧
    detect_instruction_pattern [] = none ∧
    (∀ text : Str, (pyStrip text).length < 3 → is_scam text = false) ∧
    (∀ (history : List Message) (text : Str), text = [] ∨ history = [] →
      detect_repetition history text 3 = false) ∧
    (∀ (E : ExtractionResult) (B : BehavioralSignals) (h : Nat) (i : Option Str),
      (0 : ℚ) ≤ calculate_confidence E B h i ∧ calculate_confidence E B h i ≤ 1) := by
  refine ⟨?_, rfl, rfl, ?_, ?_, ?_⟩
  · intro text hws
    rw [extract_intelligence, if_pos]
    right
    have hdrop : text.dropWhile Char.isWhitespace = [] := by
      rw [List.dropWhile_eq_nil_iff]
      intro x hx
      exact (List.all_eq_true.mp hws) x hx
    simp [pyStrip, hdrop]
  · intro text hlen
    rw [is_scam, if_pos (Or.inr hlen)]
  · intro history text hor
    rw [detect_repetition, if_pos hor]
  · intro E B h i
    simp only [calculate_confidence, MIN_CONFIDENCE_THRESHOLD]
    constructor
    · exact le_trans (by norm_num) (le_max_left _ _)
    · exact max_le (by norm_num) (le_trans (min_le_right _ _) (by norm_num))

/-- Claim C7, witness: the degradation facts evaluated at concrete
degenerate inputs. -/
theorem C7_witness :
    extract_intelligence ([' ']) = emptyExtraction ∧
    is_scam ("ab".toList) = false ∧
    detect_repetition [] ("xy".toList) 3 = false :=
  ⟨C7_total_degrade.1 ([' ']) (by decide),
   C7_total_degrade.2.2.2.1 ("ab".toList) (by decide),
   C7_total_degrade.2.2.2.2.1 [] ("xy".toList) (Or.inr rfl)⟩

/-- Claim C8: every category list produced by `extract_intelligence`
and every list-valued category produced by `merge_extracted` holds no
duplicate strings; in particular a text mentioning the same phone
number twice yields a `phoneNumbers` list with exactly one copy. -/
theorem C8_no_duplicates :
    (∀ text : Str,
      (extract_intelligence text).upiIds.Nodup ∧
      (extract_intelligence text).bankAccounts.Nodup ∧
      (extract_intelligence text).phishingLinks.Nodup ∧
      (extract_intelligence text).emailAddresses.Nodup ∧
      (extract_intelligence text).phoneNumbers.Nodup) ∧
    (∀ (P C : PyDict) (k : Str) (l : List Str),
      merge_extracted P C k = some (.list l) → l.Nodup) ∧
    (extract_intelligence ("call 9876543210 or 9876543210 now".toList)).phoneNumbers =
      [("9876543210".toList)] := by
  refine ⟨?_, ?_, by decide⟩
  · intro text
    rw [extract_intelligence]
    split
    · exact ⟨List.nodup_nil, List.nodup_nil, List.nodup_nil, List.nodup_nil, List.nodup_nil⟩
    · exact ⟨nodup_pyDedup _, nodup_pyDedup _, nodup_pyDedup _, nodup_pyDedup _,
        nodup_pyDedup _⟩
  · intro P C k l hml
    by_cases hk : (P k).isSome ∨ (C k).isSome
    · simp only [merge_extracted, if_pos hk, mergeVal] at hml
      split at hml
      · simp at hml
      · simp only [Option.some.injEq, PyVal.list.injEq] at hml
        rw [← hml]
        exact nodup_pyDedup _
    · simp only [merge_extracted, if_neg hk] at hml
      exact Option.noConfusion hml

/-- Claim C8, witness: the merge conjunct applied at concrete
dictionaries with duplicated entries. -/
theorem C8_witness :
    List.Nodup [("a".toList), ("b".toList), ("c".toList)] :=
  C8_no_duplicates.2.1
    (fun q => if q = ("k".toList) then
        some (.list [("a".toList), ("a".toList), ("b".toList)])
      else none)
    (fun q => if q = ("k".toList) then
        some (.list [("b".toList), ("c".toList)])
      else none)
    ("k".toList) [("a".toList), ("b".toList), ("c".toList)] (by decide)

/-- Claim C9: any text containing the character `@` with more than 3
whitespace-separated tokens is labeled `ask_for_upi_id`, because `@` is
a keyword of the first-priority category, so no later label (such as
`ask_for_otp` or `ask_for_credentials`) can be produced for it. -/
theorem C9_at_sign_priority :
    ∀ text : Str, '@' ∈ text → 3 < tokCount text →
      detect_instruction_pattern text = some ("ask_for_upi_id".toList) := by
  intro text hat htok
  have hne : text ≠ [] := by rintro rfl; exact List.not_mem_nil '@' hat
  have hmem : '@' ∈ pyLower text := List.mem_map.mpr ⟨'@', hat, rfl⟩
  have hc : pyContains (pyLower text) (("@".toList)) = true :=
    (pyContains_singleton (pyLower text) '@').mpr hmem
  have htok2 : 3 < tokCount (pyLower text) := by rw [tokCount_pyLower]; exact htok
  have hany : (List.any [("upi id".toList), ("@".toList), ("vpa".toList),
      ("upi address".toList), ("send upi".toList)]
      (fun k => pyContains (pyLower text) k)) = true :=
    List.any_eq_true.mpr
      ⟨("@".toList), List.mem_cons_of_mem _ (List.mem_cons_self _ _), hc⟩
  have hp : (List.any [("upi id".toList), ("@".toList), ("vpa".toList),
        ("upi address".toList), ("send upi".toList)]
        (fun k => pyContains (pyLower text) k)
      && decide (3 < tokCount (pyLower text))) = true :=
    (Bool.and_eq_true _ _).mpr ⟨hany, decide_eq_true htok2⟩
  simp only [detect_instruction_pattern, if_neg hne, INSTRUCTION_PATTERNS, List.find?]
  rw [hp]

/-- Claim C9, witness: a concrete 5-token message containing an email
address (hence `@`) is labeled `ask_for_upi_id`. -/
theorem C9_witness :
    detect_instruction_pattern ("send money to x@y today".toList) =
      some ("ask_for_upi_id".toList) :=
  C9_at_sign_priority ("send money to x@y today".toList) (by decide) (by decide)

set_option maxHeartbeats 1000000 in
/-- Claim C10: `calculate_confidence` never goes below the base score
0.5 — the additive contributions are all non-negative and the clamp
keeps `min score 0.99 ≥ 0.5` — so the configured 0.3 floor is never the
binding lower bound. -/
theorem C10_confidence_floor :
    ∀ (E : ExtractionResult) (B : BehavioralSignals) (h : Nat) (i : Option Str),
      (0.5 : ℚ) ≤ calculate_confidence E B h i := by
  intro E B h i
  have hterm : (0 : ℚ) ≤ extractedItemsTerm E := by
    rw [extractedItemsTerm]
    split
    · exact le_min (by positivity) (by norm_num)
    · exact le_refl 0
  simp only [calculate_confidence, MIN_CONFIDENCE_THRESHOLD]
  refine le_trans (le_min ?_ (by norm_num)) (le_max_right _ _)
  split_ifs <;> linarith

end Honeypot
